import Mathlib

/-!
Verification development for the go-authgate CLI (OAuth 2.0 hybrid client).

The Go sources are shallowly embedded: pure logic becomes Lean functions,
file-system and network effects become explicit inputs/outputs (the token
file is modelled at the parsed level, HTTP responses as structures carrying
the status code and the possible parse results of the body), and Go `error`
values become an explicit error type.  Machine `int` values are modelled as
`Int`; Go `len` on strings is byte length, modelled as `String.utf8ByteSize`.
-/

namespace AuthGate

/-- GoTime models a Go `time.Time` wall-clock instant: whole seconds since
the epoch plus a sub-second nanosecond component. -/
structure GoTime where
  sec : Int
  nsec : Nat
deriving DecidableEq, Repr

/-- Truncation of a timestamp to whole seconds (drops sub-second precision),
as performed by `time.Time.Truncate(time.Second)`. -/
def GoTime.truncSec (t : GoTime) : Int := t.sec

/-- GoTime.addSeconds models `t.Add(time.Duration(n) * time.Second)`. -/
def GoTime.addSeconds (t : GoTime) (n : Int) : GoTime :=
  { sec := t.sec + n, nsec := t.nsec }

/-- TokenStorage embeds the Go struct `TokenStorage` of `tokens.go`:
persisted OAuth tokens for one client. -/
structure TokenStorage where
  accessToken : String
  refreshToken : String
  tokenType : String
  expiresAt : GoTime
  clientID : String
  flow : String
deriving DecidableEq, Repr

/-- TokenMap models the Go `map[string]*TokenStorage` inside
`TokenStorageMap` as an association list with unique keys. -/
abbrev TokenMap := List (String × TokenStorage)

/-- mapGet models a Go map lookup `m[k]` (first matching key; keys are
unique in every map the code builds). -/
def mapGet : TokenMap → String → Option TokenStorage
  | [], _ => none
  | (k, v) :: rest, key => if k = key then some v else mapGet rest key

/-- mapInsert models a Go map assignment `m[k] = v`: replaces the entry in
place when the key is present, otherwise adds it. -/
def mapInsert : TokenMap → String → TokenStorage → TokenMap
  | [], key, v => [(key, v)]
  | (k, w) :: rest, key, v =>
      if k = key then (key, v) :: rest else (k, w) :: mapInsert rest key v

/-- FileState models the observable states of the token file as seen through
`os.ReadFile` + `json.Unmarshal` into `TokenStorageMap`:
`absent` — `os.ReadFile` fails with a not-exist error;
`readFailure` — `os.ReadFile` fails for another reason (permissions, I/O);
`unparsable` — the bytes exist but `json.Unmarshal` fails;
`parsed none` — the JSON parses but the `tokens` key is absent or null
(the Go map is `nil`);
`parsed (some m)` — the JSON parses to the mapping `m`.
Serialization (`json.MarshalIndent`) followed by parsing is the identity on
well-formed mappings, so a written file is modelled directly as `parsed`. -/
inductive FileState where
  | absent
  | readFailure
  | unparsable
  | parsed (tokens : Option TokenMap)
deriving DecidableEq, Repr

/-- LoadError mirrors the distinct error values `loadTokens` in `tokens.go`
can return, one constructor per `return nil, ...` site:
`fileNotExist` — the raw `os.ReadFile` error wrapping `fs.ErrNotExist`;
`readOther` — a raw `os.ReadFile` error of another kind;
`parseError` — `failed to parse token file: ...`;
`noTokensInFile` — `no tokens in file`;
`noTokensForClient` — `no tokens found for client_id: ...`. -/
inductive LoadError where
  | fileNotExist
  | readOther
  | parseError
  | noTokensInFile
  | noTokensForClient (clientID : String)
deriving DecidableEq, Repr

/-- Modelled from the spec: the spec's `NotFound` classification of a load
failure (file absent, mapping empty, or client key not present), to be
compared with the error values the source actually produces. -/
def LoadError.isNotFound : LoadError → Bool
  | .fileNotExist => true
  | .noTokensInFile => true
  | .noTokensForClient _ => true
  | .readOther => false
  | .parseError => false

/-- loadTokens embeds `loadTokens` of `tokens.go`: read the file, parse it,
require a non-nil `tokens` mapping, and look up the configured client id. -/
def loadTokens (fs : FileState) (clientID : String) : Except LoadError TokenStorage :=
  match fs with
  | .absent => .error .fileNotExist
  | .readFailure => .error .readOther
  | .unparsable => .error .parseError
  | .parsed none => .error .noTokensInFile
  | .parsed (some m) =>
      match mapGet m clientID with
      | some storage => .ok storage
      | none => .error (.noTokensForClient clientID)

/-- withDefaultClientID models the first statement of `saveTokens`:
an empty `storage.ClientID` is replaced by the configured client id. -/
def withDefaultClientID (cfgClientID : String) (storage : TokenStorage) : TokenStorage :=
  if storage.clientID = "" then { storage with clientID := cfgClientID } else storage

/-- existingTokens models the best-effort read-and-merge step of
`saveTokens`: a mapping read from a parseable existing file is kept; an
unreadable file, an unparsable file, or a nil `tokens` mapping all yield an
empty mapping (`make(map[string]*TokenStorage)`). -/
def existingTokens : FileState → TokenMap
  | .parsed (some m) => m
  | _ => []

/-- saveTokens embeds the data transformation of `saveTokens` in `tokens.go`
(the lock acquisition, temp-file write and atomic rename are environmental
I/O; a successful save is modelled): default the record's client id to the
configured one when empty, merge with the existing file's mapping, insert
the record under its client id, and write the result.  Returns the new file
state together with the (possibly client-id-defaulted) record persisted. -/
def saveTokens (fs : FileState) (cfgClientID : String) (storage : TokenStorage) :
    FileState × TokenStorage :=
  (.parsed (some (mapInsert (existingTokens fs)
      (withDefaultClientID cfgClientID storage).clientID
      (withDefaultClientID cfgClientID storage))),
   withDefaultClientID cfgClientID storage)

/-- saveAll folds `saveTokens` over a list of records, each saved with the
configured client id equal to the record's own (the multi-client scenario
of the repository's tests). -/
def saveAll (fs : FileState) (records : List TokenStorage) : FileState :=
  records.foldl (fun fs st => (saveTokens fs st.clientID st).1) fs

/-- validateTokenResponse embeds `validateTokenResponse` of `tokens.go`;
`len(accessToken)` in Go is the UTF-8 byte length. -/
def validateTokenResponse (accessToken tokenType : String) (expiresIn : Int) :
    Except String Unit :=
  if accessToken = "" then
    .error "access_token is empty"
  else if accessToken.utf8ByteSize < 10 then
    .error ("access_token is too short (length: " ++ toString accessToken.utf8ByteSize ++ ")")
  else if expiresIn ≤ 0 then
    .error ("expires_in must be positive, got: " ++ toString expiresIn)
  else if tokenType ≠ "" ∧ tokenType ≠ "Bearer" then
    .error ("unexpected token_type: " ++ tokenType ++ " (expected Bearer)")
  else
    .ok ()

theorem mapGet_mapInsert_self (m : TokenMap) (k : String) (v : TokenStorage) :
    mapGet (mapInsert m k v) k = some v := by
  induction m with
  | nil => simp [mapInsert, mapGet]
  | cons hd tl ih =>
      obtain ⟨k', v'⟩ := hd
      by_cases h : k' = k
      · simp [mapInsert, h, mapGet]
      · simp [mapInsert, h, mapGet, ih]

theorem mapGet_mapInsert_ne (m : TokenMap) (k c : String) (v : TokenStorage)
    (hne : c ≠ k) : mapGet (mapInsert m k v) c = mapGet m c := by
  induction m with
  | nil => simp [mapInsert, mapGet, Ne.symm hne]
  | cons hd tl ih =>
      obtain ⟨k', v'⟩ := hd
      by_cases h : k' = k
      · subst h
        simp [mapInsert, mapGet, Ne.symm hne]
      · simp only [mapInsert, if_neg h, mapGet]
        by_cases h2 : k' = c <;> simp [h2, ih]

/-- C1: for every token record with a non-empty client id, a successful
`saveTokens` followed by `loadTokens` with the configured client id equal to
that record's client id returns a record equal in every field, with the
expiry timestamp equal modulo truncation of sub-second precision. -/
theorem save_load_roundtrip (fs : FileState) (cfg : String) (st : TokenStorage)
    (hcid : st.clientID ≠ "") :
    ∃ st', loadTokens (saveTokens fs cfg st).1 st.clientID = .ok st' ∧
      st'.accessToken = st.accessToken ∧
      st'.refreshToken = st.refreshToken ∧
      st'.tokenType = st.tokenType ∧
      st'.clientID = st.clientID ∧
      st'.flow = st.flow ∧
      st'.expiresAt.truncSec = st.expiresAt.truncSec := by
  refine ⟨st, ?_, rfl, rfl, rfl, rfl, rfl, rfl⟩
  simp [saveTokens, withDefaultClientID, loadTokens, hcid, mapGet_mapInsert_self]

/-- C1 witness: the round-trip at a concrete record and file state. -/
theorem save_load_roundtrip_witness :
    ∃ st', loadTokens
        (saveTokens (.parsed (some [("other",
          ⟨"tok-other-12345", "r", "Bearer", ⟨10, 0⟩, "other", "device"⟩)]))
          "cfg"
          ⟨"tok-abcdefgh", "refresh-1", "Bearer", ⟨100, 500⟩, "client-a", "browser"⟩).1
        "client-a" = .ok st' ∧
      st'.accessToken = "tok-abcdefgh" ∧
      st'.refreshToken = "refresh-1" ∧
      st'.tokenType = "Bearer" ∧
      st'.clientID = "client-a" ∧
      st'.flow = "browser" ∧
      st'.expiresAt.truncSec = (100 : Int) := by
  obtain ⟨st', h1, h2, h3, h4, h5, h6, h7⟩ :=
    save_load_roundtrip (.parsed (some [("other",
      ⟨"tok-other-12345", "r", "Bearer", ⟨10, 0⟩, "other", "device"⟩)]))
      "cfg"
      ⟨"tok-abcdefgh", "refresh-1", "Bearer", ⟨100, 500⟩, "client-a", "browser"⟩
      (by decide)
  exact ⟨st', h1, h2, h3, h4, h5, h6, h7⟩

/-- C4: `validateTokenResponse` succeeds iff the access token is non-empty,
has (byte) length at least 10, the expiry is strictly positive, and the
token type is empty or exactly "Bearer"; every violation yields an error. -/
theorem validateTokenResponse_ok_iff (a t : String) (n : Int) :
    (validateTokenResponse a t n = .ok () ↔
      (a ≠ "" ∧ 10 ≤ a.utf8ByteSize ∧ 0 < n ∧ (t = "" ∨ t = "Bearer"))) ∧
    (validateTokenResponse a t n = .ok () ∨
      ∃ msg, validateTokenResponse a t n = .error msg) := by
  constructor
  · unfold validateTokenResponse
    by_cases h1 : a = "" <;> by_cases h2 : a.utf8ByteSize < 10 <;>
      by_cases h3 : n ≤ 0 <;> by_cases h4 : t = "" <;> by_cases h5 : t = "Bearer" <;>
      simp [h1, h2, h3, h4, h5] <;> omega
  · unfold validateTokenResponse
    by_cases h1 : a = "" <;> by_cases h2 : a.utf8ByteSize < 10 <;>
      by_cases h3 : n ≤ 0 <;> by_cases h4 : t = "" <;> by_cases h5 : t = "Bearer" <;>
      simp [h1, h2, h3, h4, h5]

theorem mapInsert_of_not_mem (m : TokenMap) (k : String) (v : TokenStorage)
    (h : mapGet m k = none) : mapInsert m k v = m ++ [(k, v)] := by
  induction m with
  | nil => simp [mapInsert]
  | cons hd tl ih =>
      obtain ⟨k', v'⟩ := hd
      simp only [mapGet] at h
      by_cases hk : k' = k
      · simp [hk] at h
      · simp only [mapGet, if_neg hk] at h
        simp [mapInsert, hk, ih h]

theorem mapGet_append (m m' : TokenMap) (k : String) :
    mapGet (m ++ m') k =
      match mapGet m k with
      | some v => some v
      | none => mapGet m' k := by
  induction m with
  | nil => simp [mapGet]
  | cons hd tl ih =>
      obtain ⟨k', v'⟩ := hd
      by_cases hk : k' = k <;> simp [mapGet, hk, ih]

theorem mapGet_map_of_nodup (rs : List TokenStorage)
    (hnod : (rs.map TokenStorage.clientID).Nodup) (st : TokenStorage)
    (hmem : st ∈ rs) :
    mapGet (rs.map fun r => (r.clientID, r)) st.clientID = some st := by
  induction rs with
  | nil => simp at hmem
  | cons hd tl ih =>
      simp only [List.map_cons, List.nodup_cons] at hnod
      rcases List.mem_cons.mp hmem with h | h
      · subst h
        simp [mapGet]
      · have hne : hd.clientID ≠ st.clientID := by
          intro he
          exact hnod.1 (he ▸ List.mem_map_of_mem TokenStorage.clientID h)
        simp [mapGet, hne, ih hnod.2 h]

theorem saveAll_from_disjoint (rs : List TokenStorage) (m : TokenMap)
    (hnod : (rs.map TokenStorage.clientID).Nodup)
    (hne : ∀ st ∈ rs, st.clientID ≠ "")
    (hdis : ∀ st ∈ rs, mapGet m st.clientID = none) :
    saveAll (.parsed (some m)) rs =
      .parsed (some (m ++ rs.map fun r => (r.clientID, r))) := by
  induction rs generalizing m with
  | nil => simp [saveAll]
  | cons hd tl ih =>
      have hhd : hd.clientID ≠ "" := hne hd (List.mem_cons_self hd tl)
      have hstep : saveAll (.parsed (some m)) (hd :: tl) =
          saveAll (.parsed (some (m ++ [(hd.clientID, hd)]))) tl := by
        simp [saveAll, saveTokens, withDefaultClientID, hhd, existingTokens,
          mapInsert_of_not_mem m hd.clientID hd (hdis hd (List.mem_cons_self hd tl))]
      rw [hstep]
      simp only [List.map_cons, List.nodup_cons] at hnod
      have hdis2 : ∀ st ∈ tl, mapGet (m ++ [(hd.clientID, hd)]) st.clientID = none := by
        intro st h
        rw [mapGet_append, hdis st (List.mem_cons_of_mem hd h)]
        have hne2 : hd.clientID ≠ st.clientID := by
          intro he
          exact hnod.1 (he ▸ List.mem_map_of_mem TokenStorage.clientID h)
        simp [mapGet, hne2]
      rw [ih (m ++ [(hd.clientID, hd)]) hnod.2
        (fun st h => hne st (List.mem_cons_of_mem hd h)) hdis2]
      simp

/-- C7: a save into a parseable file preserves every other client's entry;
N saves with N distinct (non-empty) client ids yield a file with exactly
those N entries, each loadable; and a save over an unparsable file starts
from an empty mapping, so the result contains only the saved record. -/
theorem saveTokens_merge_frame :
    (∀ (m : TokenMap) (cfg : String) (st : TokenStorage) (c : String),
      c ≠ (saveTokens (.parsed (some m)) cfg st).2.clientID →
      loadTokens (saveTokens (.parsed (some m)) cfg st).1 c =
        loadTokens (.parsed (some m)) c) ∧
    (∀ rs : List TokenStorage,
      (rs.map TokenStorage.clientID).Nodup →
      (∀ st ∈ rs, st.clientID ≠ "") →
      ∃ m, saveAll (.parsed (some [])) rs = .parsed (some m) ∧
        m.length = rs.length ∧
        ∀ st ∈ rs, loadTokens (.parsed (some m)) st.clientID = .ok st) ∧
    (∀ (cfg : String) (st : TokenStorage),
      (saveTokens .unparsable cfg st).1 =
        .parsed (some [((saveTokens .unparsable cfg st).2.clientID,
          (saveTokens .unparsable cfg st).2)])) := by
  refine ⟨?_, ?_, ?_⟩
  · intro m cfg st c hc
    simp only [saveTokens] at hc ⊢
    rw [show existingTokens (.parsed (some m)) = m from rfl]
    simp only [loadTokens]
    rw [mapGet_mapInsert_ne m _ c _ hc]
  · intro rs hnod hne
    refine ⟨rs.map fun r => (r.clientID, r), ?_, by simp, ?_⟩
    · have h := saveAll_from_disjoint rs [] hnod hne (fun st _ => rfl)
      simpa using h
    · intro st hmem
      simp [loadTokens, mapGet_map_of_nodup rs hnod st hmem]
  · intro cfg st
    rfl

/-- C7 witness: two concrete saves with distinct client ids, plus a save
over an unparsable file. -/
theorem saveTokens_merge_frame_witness :
    (∃ m, saveAll (.parsed (some []))
        [⟨"a-token-000001", "r1", "Bearer", ⟨1, 0⟩, "client-a", "browser"⟩,
         ⟨"a-token-000002", "r2", "Bearer", ⟨2, 0⟩, "client-b", "device"⟩] =
        .parsed (some m) ∧
      m.length = 2 ∧
      ∀ st ∈ ([⟨"a-token-000001", "r1", "Bearer", ⟨1, 0⟩, "client-a", "browser"⟩,
         ⟨"a-token-000002", "r2", "Bearer", ⟨2, 0⟩, "client-b", "device"⟩] :
          List TokenStorage),
        loadTokens (.parsed (some m)) st.clientID = .ok st) ∧
    (saveTokens .unparsable "cfg"
        ⟨"a-token-000003", "r3", "Bearer", ⟨3, 0⟩, "client-c", "browser"⟩).1 =
      .parsed (some [("client-c",
        ⟨"a-token-000003", "r3", "Bearer", ⟨3, 0⟩, "client-c", "browser"⟩)]) := by
  constructor
  · exact saveTokens_merge_frame.2.1
      [⟨"a-token-000001", "r1", "Bearer", ⟨1, 0⟩, "client-a", "browser"⟩,
       ⟨"a-token-000002", "r2", "Bearer", ⟨2, 0⟩, "client-b", "device"⟩]
      (by decide) (by decide)
  · rfl

/-- C9: `loadTokens` fails with a NotFound-classified error exactly when the
file is absent, the `tokens` mapping is nil, or the client key is missing;
an existing file that does not parse yields a parse error that is not
classified NotFound. -/
theorem loadTokens_notFound_classification (fs : FileState) (cid : String) :
    ((∃ e, loadTokens fs cid = .error e ∧ e.isNotFound = true) ↔
      (fs = .absent ∨ fs = .parsed none ∨
        ∃ m, fs = .parsed (some m) ∧ mapGet m cid = none)) ∧
    (loadTokens .unparsable cid = .error .parseError ∧
      LoadError.parseError.isNotFound = false) := by
  refine ⟨?_, rfl, rfl⟩
  cases fs with
  | absent => simp [loadTokens, LoadError.isNotFound]
  | readFailure => simp [loadTokens, LoadError.isNotFound]
  | unparsable => simp [loadTokens, LoadError.isNotFound]
  | parsed o =>
      cases o with
      | none => simp [loadTokens, LoadError.isNotFound]
      | some m =>
          cases h : mapGet m cid with
          | none => simp [loadTokens, h, LoadError.isNotFound]
          | some st => simp [loadTokens, h]

/-- GoError models Go error values as this code base constructs them:
`sentinel` — a package-level error value created once at init (compared by
identity, which sentinel-message equality models faithfully here because the
two sentinels carry distinct messages);
`dynamic` — a fresh `fmt.Errorf` error value, never `errors.Is`-equal to a
previously created target;
`wrap` — `fmt.Errorf` with `%w`, prefixing text onto a wrapped error. -/
inductive GoError where
  | sentinel (m : String)
  | dynamic (m : String)
  | wrap (outer : String) (inner : GoError)
deriving DecidableEq, Repr

/-- errorsIs models `errors.Is`: an error matches the target if it is the
target (identity — possible only for sentinels here) or some error in its
`%w` unwrap chain is. -/
def errorsIs : GoError → GoError → Bool
  | .sentinel m, t => t == .sentinel m
  | .dynamic _, _ => false
  | .wrap _ inner, t => errorsIs inner t

/-- ErrRefreshTokenExpired embeds the package-level sentinel of `tokens.go`. -/
def ErrRefreshTokenExpired : GoError := .sentinel "refresh token expired or invalid"

/-- ErrCallbackTimeout embeds the package-level sentinel of the callback
listener file. -/
def ErrCallbackTimeout : GoError := .sentinel "browser authorization timed out"

/-- ErrorResponse embeds the OAuth error payload struct of `tokens.go`. -/
structure ErrorResponse where
  error : String
  errorDescription : String
deriving DecidableEq, Repr

/-- TokenResp embeds the anonymous token-response struct parsed from an
`/oauth/token` body (`access_token`, `refresh_token`, `token_type`,
`expires_in`). -/
structure TokenResp where
  accessToken : String
  refreshToken : String
  tokenType : String
  expiresIn : Int
deriving DecidableEq, Repr

/-- HTTPResponse models a received HTTP response: the status code together
with the results of the two `json.Unmarshal` attempts the code can make on
the body (`none` models a parse failure). -/
structure HTTPResponse where
  statusCode : Nat
  asErrorResponse : Option ErrorResponse
  asTokenResponse : Option TokenResp
deriving DecidableEq, Repr

/-- refreshAccessToken embeds the response processing of
`refreshAccessToken` (request construction and transport are I/O; the model
receives the previous refresh token, the response, the current time, the
token-file state and the configured client id).  Mirrors the source: a
non-200 response whose body parses to `invalid_grant`/`invalid_token` yields
the `ErrRefreshTokenExpired` sentinel, other parsed errors are surfaced
verbatim; a 200 body is parsed and validated; the previous refresh token is
carried forward when the response omits one; the record is built with the
configured client id and persisted via `saveTokens` (a save failure is only
warned about in the source, so persistence is modelled as succeeding). -/
def refreshAccessToken (refreshToken : String) (resp : HTTPResponse) (now : GoTime)
    (fs : FileState) (clientID : String) :
    Except GoError (TokenStorage × FileState) :=
  if resp.statusCode ≠ 200 then
    match resp.asErrorResponse with
    | some errResp =>
        if errResp.error = "invalid_grant" ∨ errResp.error = "invalid_token" then
          .error ErrRefreshTokenExpired
        else
          .error (.dynamic (errResp.error ++ ": " ++ errResp.errorDescription))
    | none =>
        .error (.dynamic ("refresh failed with status " ++ toString resp.statusCode))
  else
    match resp.asTokenResponse with
    | none => .error (.dynamic "failed to parse token response")
    | some tokenResp =>
        match validateTokenResponse tokenResp.accessToken tokenResp.tokenType
            tokenResp.expiresIn with
        | .error e => .error (.wrap "invalid token response" (.dynamic e))
        | .ok _ =>
            let newRefreshToken :=
              if tokenResp.refreshToken = "" then refreshToken else tokenResp.refreshToken
            let storage : TokenStorage :=
              { accessToken := tokenResp.accessToken
                refreshToken := newRefreshToken
                tokenType := tokenResp.tokenType
                expiresAt := now.addSeconds tokenResp.expiresIn
                clientID := clientID
                flow := "" }
            .ok (storage, (saveTokens fs clientID storage).1)

theorem withDefaultClientID_self (cid : String) (st : TokenStorage)
    (h : st.clientID = cid) : withDefaultClientID cid st = st := by
  unfold withDefaultClientID
  split
  · rw [← h]
  · rfl

theorem load_after_save_self (fs : FileState) (cid : String) (st : TokenStorage)
    (h : st.clientID = cid) :
    loadTokens (saveTokens fs cid st).1 cid = .ok st := by
  simp [saveTokens, withDefaultClientID_self cid st h, loadTokens, h,
    mapGet_mapInsert_self]

/-- C5: when a refresh succeeds, the returned record — which is also the one
persisted to the token file — retains the previous refresh token if the
response omits or empties `refresh_token`, and carries the response's new
value otherwise. -/
theorem refreshAccessToken_refresh_carry
    (r : String) (resp : HTTPResponse) (now : GoTime) (fs : FileState)
    (cid : String) (st : TokenStorage) (fs' : FileState) (tr : TokenResp)
    (hok : refreshAccessToken r resp now fs cid = .ok (st, fs'))
    (htr : resp.asTokenResponse = some tr) :
    (tr.refreshToken = "" → st.refreshToken = r) ∧
    (tr.refreshToken ≠ "" → st.refreshToken = tr.refreshToken) ∧
    loadTokens fs' cid = .ok st := by
  unfold refreshAccessToken at hok
  by_cases hsc : resp.statusCode ≠ 200
  · rw [if_pos hsc] at hok
    cases hre : resp.asErrorResponse with
    | some e =>
        rw [hre] at hok
        dsimp only at hok
        by_cases hig : e.error = "invalid_grant" ∨ e.error = "invalid_token" <;>
          simp [hig] at hok
    | none =>
        rw [hre] at hok
        simp at hok
  · rw [if_neg hsc, htr] at hok
    dsimp only at hok
    cases hval : validateTokenResponse tr.accessToken tr.tokenType tr.expiresIn with
    | error e =>
        rw [hval] at hok
        simp at hok
    | ok u =>
        cases u
        rw [hval] at hok
        dsimp only at hok
        simp only [Except.ok.injEq, Prod.mk.injEq] at hok
        obtain ⟨hst, hfs⟩ := hok
        subst hfs
        refine ⟨?_, ?_, ?_⟩
        · intro h
          rw [← hst]
          simp [h]
        · intro h
          rw [← hst]
          simp [h]
        · rw [← hst]
          exact load_after_save_self fs cid _ rfl

/-- C5 witness: a concrete successful refresh whose response omits the
refresh token, at a concrete file state. -/
theorem refreshAccessToken_refresh_carry_witness :
    ∃ st fs',
      refreshAccessToken "old-refresh"
        ⟨200, none, some ⟨"new-access-token", "", "Bearer", 3600⟩⟩
        ⟨1000, 0⟩ .absent "client-x" = .ok (st, fs') ∧
      ((("" : String) = "" → st.refreshToken = "old-refresh") ∧
        (("" : String) ≠ "" → st.refreshToken = "") ∧
        loadTokens fs' "client-x" = .ok st) := by
  refine ⟨_, _, rfl, ?_⟩
  exact refreshAccessToken_refresh_carry "old-refresh"
    ⟨200, none, some ⟨"new-access-token", "", "Bearer", 3600⟩⟩
    ⟨1000, 0⟩ .absent "client-x" _ _ ⟨"new-access-token", "", "Bearer", 3600⟩
    rfl rfl

/-- FormValues models `url.Values` built only through `Set` (each key holds
a single value); `formSet` models `Values.Set` (replace or add). -/
abbrev FormValues := List (String × String)

def formSet : FormValues → String → String → FormValues
  | [], key, v => [(key, v)]
  | (k, w) :: rest, key, v =>
      if k = key then (key, v) :: rest else (k, w) :: formSet rest key v

def formGet : FormValues → String → Option String
  | [], _ => none
  | (k, v) :: rest, key => if k = key then some v else formGet rest key

/-- Modelled from the spec: `isPublicClient` is defined in a configuration
file of this repository that is not under src/ (it is only called and
tested there).  Per the spec, a client is public exactly when no client
secret is configured; the repository's `TestIsPublicClient` asserts the
same. -/
def isPublicClient (clientSecret : String) : Bool := clientSecret == ""

/-- exchangeCodeForm embeds the form construction of `exchangeCode`:
`grant_type`, `code`, `redirect_uri`, `client_id` are always set; a public
client then sets `code_verifier` only, a confidential client sets
`client_secret` and `code_verifier`. -/
def exchangeCodeForm (clientID redirectURI clientSecret code codeVerifier : String) :
    FormValues :=
  let d := formSet [] "grant_type" "authorization_code"
  let d := formSet d "code" code
  let d := formSet d "redirect_uri" redirectURI
  let d := formSet d "client_id" clientID
  if isPublicClient clientSecret then
    formSet d "code_verifier" codeVerifier
  else
    formSet (formSet d "client_secret" clientSecret) "code_verifier" codeVerifier

/-- C6: the code-exchange form always includes `code_verifier` (public and
confidential clients alike), and includes `client_secret` precisely when a
non-empty client secret is configured. -/
theorem exchangeCodeForm_pkce
    (clientID redirectURI clientSecret code codeVerifier : String) :
    formGet (exchangeCodeForm clientID redirectURI clientSecret code codeVerifier)
        "code_verifier" = some codeVerifier ∧
    ((∃ v, formGet (exchangeCodeForm clientID redirectURI clientSecret code codeVerifier)
        "client_secret" = some v) ↔ clientSecret ≠ "") ∧
    (clientSecret ≠ "" →
      formGet (exchangeCodeForm clientID redirectURI clientSecret code codeVerifier)
        "client_secret" = some clientSecret) := by
  by_cases h : clientSecret = "" <;>
    simp [exchangeCodeForm, isPublicClient, h, formSet, formGet]

/-- C6 witness: the form of a confidential client at concrete values, and of
a public client. -/
theorem exchangeCodeForm_pkce_witness :
    formGet (exchangeCodeForm "cid" "uri" "sec" "c0" "ver") "code_verifier" =
      some "ver" ∧
    formGet (exchangeCodeForm "cid" "uri" "sec" "c0" "ver") "client_secret" =
      some "sec" ∧
    formGet (exchangeCodeForm "cid" "uri" "" "c0" "ver") "code_verifier" =
      some "ver" ∧
    formGet (exchangeCodeForm "cid" "uri" "" "c0" "ver") "client_secret" = none := by
  refine ⟨(exchangeCodeForm_pkce "cid" "uri" "sec" "c0" "ver").1,
    (exchangeCodeForm_pkce "cid" "uri" "sec" "c0" "ver").2.2 (by decide),
    (exchangeCodeForm_pkce "cid" "uri" "" "c0" "ver").1, ?_⟩
  have h := (exchangeCodeForm_pkce "cid" "uri" "" "c0" "ver").2.1
  cases hg : formGet (exchangeCodeForm "cid" "uri" "" "c0" "ver") "client_secret" with
  | none => rfl
  | some v =>
      exact absurd (h.mp ⟨v, hg⟩) (by simp)

/-- callbackTimeoutSeconds embeds the constant `callbackTimeout = 2 *
time.Minute`, in seconds. -/
def callbackTimeoutSeconds : Nat := 2 * 60

/-- channelCapacity is the capacity of the result channel
`make(chan callbackResult, 1)`. -/
def channelCapacity : Nat := 1

/-- CallbackRequest models the query parameters of one request to
`/callback`; `q.Get` of an absent parameter is the empty string. -/
structure CallbackRequest where
  errorParam : String
  errorDescription : String
  state : String
  code : String
deriving DecidableEq, Repr

/-- Page models the HTML page `writeCallbackPage` renders to the browser
tab. -/
inductive Page where
  | success
  | failure (errCode errDesc : String)
deriving DecidableEq, Repr

/-- callbackResult embeds the struct holding the outcome of the local
callback round-trip. -/
structure callbackResult where
  code : String
  error : String
  desc : String
deriving DecidableEq, Repr

/-- handleCallback embeds the `/callback` handler's decision tree: an OAuth
`error` parameter, then the byte-exact state check, then the presence of
`code`; it returns the rendered page and the result passed to
`sendResult`. -/
def handleCallback (expectedState : String) (req : CallbackRequest) :
    Page × callbackResult :=
  if req.errorParam ≠ "" then
    (.failure req.errorParam req.errorDescription,
     ⟨"", req.errorParam, req.errorDescription⟩)
  else if req.state ≠ expectedState then
    (.failure "state_mismatch" "State parameter does not match. Possible CSRF attack.",
     ⟨"", "state_mismatch", "state parameter mismatch"⟩)
  else if req.code = "" then
    (.failure "missing_code" "No authorization code in callback.",
     ⟨"", "missing_code", "code parameter missing"⟩)
  else
    (.success, ⟨req.code, "", ""⟩)

/-- ListenerState models the once-gated result channel: `delivered` is the
single buffered slot (set exactly by the first `once.Do` body to run) and
`sendCount` counts actual channel sends. -/
structure ListenerState where
  delivered : Option callbackResult
  sendCount : Nat
deriving DecidableEq, Repr

/-- sendResult embeds `sendResult`: under the `sync.Once` gate, the first
call performs the (buffered, hence non-blocking) channel send and every
later call is a no-op. -/
def sendResult (st : ListenerState) (r : callbackResult) : ListenerState :=
  match st.delivered with
  | some _ => st
  | none => { delivered := some r, sendCount := st.sendCount + 1 }

/-- processCallbacks runs the `/callback` handler over a sequence of
requests.  `sync.Once` serializes the gated bodies, so an arbitrary
concurrent interleaving of handler invocations is modelled as an arbitrary
arrival order; each handler renders its page regardless of the gate. -/
def processCallbacks (expectedState : String) (st : ListenerState)
    (reqs : List CallbackRequest) : ListenerState × List Page :=
  match reqs with
  | [] => (st, [])
  | r :: rest =>
      let pr := handleCallback expectedState r
      let st' := sendResult st pr.2
      let rec' := processCallbacks expectedState st' rest
      (rec'.1, pr.1 :: rec'.2)

/-- resolveCallback embeds the `select` at the end of `startCallbackServer`:
a received result with a non-empty error is reported as
`"<error>: <description>"` (or just the error), a clean result yields the
code, and no result within `callbackTimeout` yields an error wrapping the
`ErrCallbackTimeout` sentinel. -/
def resolveCallback (received : Option callbackResult) : Except GoError String :=
  match received with
  | some result =>
      if result.error ≠ "" then
        if result.desc ≠ "" then
          .error (.dynamic (result.error ++ ": " ++ result.desc))
        else
          .error (.dynamic result.error)
      else
        .ok result.code
  | none =>
      .error (.wrap ("after " ++ toString callbackTimeoutSeconds ++ "s")
        ErrCallbackTimeout)

/-- startCallbackServer embeds `startCallbackServer`: a listen failure on
the port is an immediate error; otherwise the handler serves the requests
completed within the 2-minute window (`reqs = []` models no completed
callback before the timeout fires) and the first delivered result decides
the return value.  Returns the outcome and the pages rendered. -/
def startCallbackServer (port : Nat) (expectedState : String)
    (listenError : Option String) (reqs : List CallbackRequest) :
    Except GoError String × List Page :=
  match listenError with
  | some e =>
      (.error (.wrap ("failed to start callback server on port " ++ toString port)
        (.dynamic e)), [])
  | none =>
      let pc := processCallbacks expectedState ⟨none, 0⟩ reqs
      (resolveCallback pc.1.delivered, pc.2)

/-- FlowEvent labels the externally visible steps of the browser flow the
claims talk about. -/
inductive FlowEvent where
  | calledExchangeCode
  | savedTokens
deriving DecidableEq, Repr

/-- BrowserFlowResult mirrors the `(storage, ok, error)` triple returned by
`performBrowserFlow`. -/
structure BrowserFlowResult where
  storage : Option TokenStorage
  ok : Bool
  err : Option GoError
deriving DecidableEq, Repr

/-- performBrowserFlow embeds `performBrowserFlow` (state and PKCE
generation succeed with the given state; the browser-launch outcome, the
listener inputs and the exchange outcome are the environment's inputs): a
browser-launch failure returns the fall-back triple `(nil, false, nil)`;
a callback error that `errors.Is` the `ErrCallbackTimeout` sentinel also
returns the fall-back triple; any other callback error is surfaced as a
hard `authorization failed` error; on a code, `exchangeCode` runs, the
record is stamped `flow="browser"` and persisted via `saveTokens`. -/
def performBrowserFlow (state : String) (port : Nat)
    (browserLaunchError : Option String) (listenError : Option String)
    (reqs : List CallbackRequest)
    (exchange : String → Except GoError TokenStorage)
    (fs : FileState) (cfgClientID : String) :
    BrowserFlowResult × List FlowEvent × FileState :=
  match browserLaunchError with
  | some _ => (⟨none, false, none⟩, [], fs)
  | none =>
      match (startCallbackServer port state listenError reqs).1 with
      | .error e =>
          if errorsIs e ErrCallbackTimeout then
            (⟨none, false, none⟩, [], fs)
          else
            (⟨none, false, some (.wrap "authorization failed" e)⟩, [], fs)
      | .ok code =>
          match exchange code with
          | .error e =>
              (⟨none, false, some (.wrap "token exchange failed" e)⟩,
               [.calledExchangeCode], fs)
          | .ok st0 =>
              let st := { st0 with flow := "browser" }
              (⟨some st, true, none⟩, [.calledExchangeCode, .savedTokens],
               (saveTokens fs cfgClientID st).1)

theorem processCallbacks_of_delivered (es : String) (st : ListenerState)
    (reqs : List CallbackRequest) (r : callbackResult)
    (h : st.delivered = some r) :
    (processCallbacks es st reqs).1.delivered = some r ∧
    (processCallbacks es st reqs).1.sendCount = st.sendCount := by
  induction reqs generalizing st with
  | nil => simp [processCallbacks, h]
  | cons hd tl ih =>
      simp only [processCallbacks]
      have hsr : sendResult st (handleCallback es hd).2 = st := by
        simp [sendResult, h]
      rw [hsr]
      exact ih st h

theorem processCallbacks_pages (es : String) (st : ListenerState)
    (reqs : List CallbackRequest) :
    (processCallbacks es st reqs).2 = reqs.map fun r => (handleCallback es r).1 := by
  induction reqs generalizing st with
  | nil => simp [processCallbacks]
  | cons hd tl ih => simp [processCallbacks, ih]

theorem processCallbacks_first (es : String) (r : CallbackRequest)
    (rest : List CallbackRequest) :
    (processCallbacks es ⟨none, 0⟩ (r :: rest)).1.delivered =
      some (handleCallback es r).2 ∧
    (processCallbacks es ⟨none, 0⟩ (r :: rest)).1.sendCount = 1 := by
  simp only [processCallbacks]
  have hsr : sendResult ⟨none, 0⟩ (handleCallback es r).2 =
      ⟨some (handleCallback es r).2, 1⟩ := rfl
  rw [hsr]
  exact processCallbacks_of_delivered es _ rest _ rfl

/-- C10: within one `startCallbackServer` run, over any interleaving of
`/callback` handler invocations: at most one result is ever sent on the
capacity-1 channel (the once-gate makes later deliveries no-ops), so no
handler blocks on the delivery; the return value is decided by the first
completed outcome; and every request, including late ones, still receives
its rendered page without altering the outcome. -/
theorem callback_once_delivery (port : Nat) (es : String)
    (reqs : List CallbackRequest) :
    (processCallbacks es ⟨none, 0⟩ reqs).1.sendCount ≤ channelCapacity ∧
    (startCallbackServer port es none reqs).2 =
      reqs.map (fun r => (handleCallback es r).1) ∧
    (∀ r rest, reqs = r :: rest →
      (processCallbacks es ⟨none, 0⟩ reqs).1.delivered =
        some (handleCallback es r).2 ∧
      (processCallbacks es ⟨none, 0⟩ reqs).1.sendCount = 1 ∧
      (startCallbackServer port es none reqs).1 =
        resolveCallback (some (handleCallback es r).2)) := by
  refine ⟨?_, ?_, ?_⟩
  · cases reqs with
    | nil => simp [processCallbacks, channelCapacity]
    | cons r rest =>
        rw [(processCallbacks_first es r rest).2, channelCapacity]
  · simp [startCallbackServer, processCallbacks_pages]
  · intro r rest hr
    subst hr
    refine ⟨(processCallbacks_first es r rest).1, (processCallbacks_first es r rest).2, ?_⟩
    simp [startCallbackServer, (processCallbacks_first es r rest).1]

/-- C10 witness: two concurrent success callbacks — one send, outcome of the
first, both pages rendered. -/
theorem callback_once_delivery_witness :
    (processCallbacks "s" ⟨none, 0⟩
        [⟨"", "", "s", "codeA"⟩, ⟨"", "", "s", "codeB"⟩]).1.delivered =
      some (handleCallback "s" ⟨"", "", "s", "codeA"⟩).2 ∧
    (processCallbacks "s" ⟨none, 0⟩
        [⟨"", "", "s", "codeA"⟩, ⟨"", "", "s", "codeB"⟩]).1.sendCount = 1 ∧
    (startCallbackServer 7 "s" none
        [⟨"", "", "s", "codeA"⟩, ⟨"", "", "s", "codeB"⟩]).1 =
      resolveCallback (some (handleCallback "s" ⟨"", "", "s", "codeA"⟩).2) := by
  exact (callback_once_delivery 7 "s"
      [⟨"", "", "s", "codeA"⟩, ⟨"", "", "s", "codeB"⟩]).2.2
    ⟨"", "", "s", "codeA"⟩ [⟨"", "", "s", "codeB"⟩] rfl

/-- C2: a callback carrying no `error` parameter whose state differs from
the expected state completes the listener with the state-mismatch (CSRF)
failure, and the browser flow performs no token exchange for the attempt. -/
theorem state_mismatch_no_exchange (es : String) (req : CallbackRequest)
    (rest : List CallbackRequest) (port : Nat)
    (exchange : String → Except GoError TokenStorage)
    (fs : FileState) (cfg : String)
    (he : req.errorParam = "") (hs : req.state ≠ es) :
    (handleCallback es req).2 = ⟨"", "state_mismatch", "state parameter mismatch"⟩ ∧
    (startCallbackServer port es none (req :: rest)).1 =
      .error (.dynamic "state_mismatch: state parameter mismatch") ∧
    FlowEvent.calledExchangeCode ∉
      (performBrowserFlow es port none none (req :: rest) exchange fs cfg).2.1 := by
  have hh : handleCallback es req =
      (.failure "state_mismatch" "State parameter does not match. Possible CSRF attack.",
       ⟨"", "state_mismatch", "state parameter mismatch"⟩) := by
    simp [handleCallback, he, hs]
  have hstart : (startCallbackServer port es none (req :: rest)).1 =
      .error (.dynamic "state_mismatch: state parameter mismatch") := by
    simp only [startCallbackServer]
    rw [(processCallbacks_first es req rest).1, hh]
    rfl
  refine ⟨by rw [hh], hstart, ?_⟩
  simp only [performBrowserFlow]
  rw [hstart]
  simp [errorsIs, ErrCallbackTimeout]

/-- C2 witness: a concrete mismatched-state callback. -/
theorem state_mismatch_no_exchange_witness :
    (handleCallback "expected" ⟨"", "", "wrong", "c0"⟩).2 =
      ⟨"", "state_mismatch", "state parameter mismatch"⟩ ∧
    (startCallbackServer 7 "expected" none [⟨"", "", "wrong", "c0"⟩]).1 =
      .error (.dynamic "state_mismatch: state parameter mismatch") ∧
    FlowEvent.calledExchangeCode ∉
      (performBrowserFlow "expected" 7 none none [⟨"", "", "wrong", "c0"⟩]
        (fun _ => .error (.dynamic "x")) .absent "cid").2.1 := by
  exact state_mismatch_no_exchange "expected" ⟨"", "", "wrong", "c0"⟩ [] 7
    (fun _ => .error (.dynamic "x")) .absent "cid" rfl (by decide)

/-- C3: with no completed callback within the 120-second window the listener
returns an error `errors.Is`-distinguishable as the callback-timeout
sentinel, and the browser flow converts exactly that kind into the fall-back
outcome `(nil, false, nil)`, surfacing every other callback error as a hard
error. -/
theorem callback_timeout_fallback :
    callbackTimeoutSeconds = 120 ∧
    (∀ (port : Nat) (es : String), ∃ e,
      (startCallbackServer port es none []).1 = .error e ∧
      errorsIs e ErrCallbackTimeout = true) ∧
    (∀ (es : String) (port : Nat) (exchange : String → Except GoError TokenStorage)
        (fs : FileState) (cfg : String),
      (performBrowserFlow es port none none [] exchange fs cfg).1 =
        ⟨none, false, none⟩) ∧
    (∀ (es : String) (port : Nat) (exchange : String → Except GoError TokenStorage)
        (fs : FileState) (cfg : String) (listenError : Option String)
        (reqs : List CallbackRequest) (e : GoError),
      (startCallbackServer port es listenError reqs).1 = .error e →
      errorsIs e ErrCallbackTimeout = false →
      ∃ e', (performBrowserFlow es port none listenError reqs exchange fs cfg).1 =
        ⟨none, false, some e'⟩) := by
  refine ⟨rfl, ?_, ?_, ?_⟩
  · intro port es
    exact ⟨.wrap ("after " ++ toString callbackTimeoutSeconds ++ "s") ErrCallbackTimeout,
      rfl, by decide⟩
  · intro es port exchange fs cfg
    simp [performBrowserFlow, startCallbackServer, processCallbacks, resolveCallback,
      errorsIs, ErrCallbackTimeout]
  · intro es port exchange fs cfg listenError reqs e hstart hnot
    refine ⟨.wrap "authorization failed" e, ?_⟩
    simp only [performBrowserFlow]
    rw [hstart]
    simp [hnot]

/-- C3 witness: a concrete non-timeout listener error (a bind failure) is
surfaced as a hard error, while an empty callback window falls back. -/
theorem callback_timeout_fallback_witness :
    (performBrowserFlow "st" 7 none none []
        (fun _ => .error (.dynamic "no")) .absent "cid").1 =
      ⟨none, false, none⟩ ∧
    ∃ e', (performBrowserFlow "st" 7 none (some "address already in use") []
        (fun _ => .error (.dynamic "no")) .absent "cid").1 =
      ⟨none, false, some e'⟩ := by
  refine ⟨callback_timeout_fallback.2.2.1 "st" 7
      (fun _ => .error (.dynamic "no")) .absent "cid", ?_⟩
  exact callback_timeout_fallback.2.2.2 "st" 7
    (fun _ => .error (.dynamic "no")) .absent "cid"
    (some "address already in use") []
    (.wrap ("failed to start callback server on port " ++ toString 7)
      (.dynamic "address already in use"))
    rfl (by decide)

/-- EnvState models the environment the probe inspects: the SSH-related and
display-related environment variables plus the host OS (`runtime.GOOS`). -/
structure EnvState where
  sshTTY : String
  sshClient : String
  sshConnection : String
  display : String
  waylandDisplay : String
  goos : String
deriving DecidableEq, Repr

/-- ProbeAction traces the externally visible actions of the probe. -/
inductive ProbeAction where
  | bindAttempt (port : Nat)
  | closeListener
  | openBrowser
deriving DecidableEq, Repr

/-- BrowserAvailability embeds the result struct of `detect.go`. -/
structure BrowserAvailability where
  available : Bool
  reason : String
deriving DecidableEq, Repr

/-- checkBrowserAvailability embeds `checkBrowserAvailability` of
`detect.go`; `bindError` is the outcome of the TCP bind on
`127.0.0.1:<port>` (`some msg` carries the OS error).  The action trace
records the bind attempt and the immediate close on success; the function
performs no other external action (in particular it never opens a
browser). -/
def checkBrowserAvailability (env : EnvState) (port : Nat)
    (bindError : Option String) : BrowserAvailability × List ProbeAction :=
  let inSSH := env.sshTTY != "" || env.sshClient != "" || env.sshConnection != ""
  let hasDisplay := env.display != "" || env.waylandDisplay != ""
  if inSSH && !hasDisplay then
    (⟨false, "SSH session without display forwarding"⟩, [])
  else if env.goos == "linux" && !hasDisplay then
    (⟨false, "no display server (DISPLAY/WAYLAND_DISPLAY not set)"⟩, [])
  else
    match bindError with
    | some e =>
        (⟨false, "callback port " ++ toString port ++ " unavailable: " ++ e⟩,
         [.bindAttempt port])
    | none => (⟨true, ""⟩, [.bindAttempt port, .closeListener])

/-- C8: the probe returns the first match of its ordered conditions — SSH
without display, Linux without display, bind failure with the OS error
(closing the listener immediately on success), otherwise available — and it
never opens a browser. -/
theorem checkBrowserAvailability_cascade (env : EnvState) (port : Nat)
    (bindError : Option String) :
    (((env.sshTTY ≠ "" ∨ env.sshClient ≠ "" ∨ env.sshConnection ≠ "") ∧
        env.display = "" ∧ env.waylandDisplay = "") →
      checkBrowserAvailability env port bindError =
        (⟨false, "SSH session without display forwarding"⟩, [])) ∧
    ((env.sshTTY = "" ∧ env.sshClient = "" ∧ env.sshConnection = "" ∧
        env.goos = "linux" ∧ env.display = "" ∧ env.waylandDisplay = "") →
      checkBrowserAvailability env port bindError =
        (⟨false, "no display server (DISPLAY/WAYLAND_DISPLAY not set)"⟩, [])) ∧
    (((env.display ≠ "" ∨ env.waylandDisplay ≠ "") ∨
        (env.sshTTY = "" ∧ env.sshClient = "" ∧ env.sshConnection = "" ∧
          env.goos ≠ "linux")) →
      (∀ e, bindError = some e →
        checkBrowserAvailability env port bindError =
          (⟨false, "callback port " ++ toString port ++ " unavailable: " ++ e⟩,
           [.bindAttempt port])) ∧
      (bindError = none →
        checkBrowserAvailability env port bindError =
          (⟨true, ""⟩, [.bindAttempt port, .closeListener]))) ∧
    ProbeAction.openBrowser ∉ (checkBrowserAvailability env port bindError).2 := by
  refine ⟨?_, ?_, ?_, ?_⟩
  · rintro ⟨hssh, hd, hw⟩
    have h1 : (env.sshTTY != "" || env.sshClient != "" || env.sshConnection != "") = true := by
      rcases hssh with h | h | h <;> simp [bne_iff_ne, h]
    have h2 : (env.display != "" || env.waylandDisplay != "") = false := by
      simp [hd, hw]
    simp [checkBrowserAvailability, h1, h2]
  · rintro ⟨h1, h2, h3, hg, hd, hw⟩
    have hssh : (env.sshTTY != "" || env.sshClient != "" || env.sshConnection != "") = false := by
      simp [h1, h2, h3]
    have hdisp : (env.display != "" || env.waylandDisplay != "") = false := by
      simp [hd, hw]
    simp [checkBrowserAvailability, hssh, hdisp, hg]
  · rintro (hdisp | ⟨h1, h2, h3, hg⟩)
    · have h2 : (env.display != "" || env.waylandDisplay != "") = true := by
        rcases hdisp with h | h <;> simp [bne_iff_ne, h]
      constructor
      · intro e he
        simp [checkBrowserAvailability, h2, he]
      · intro he
        simp [checkBrowserAvailability, h2, he]
    · have hssh : (env.sshTTY != "" || env.sshClient != "" || env.sshConnection != "") = false := by
        simp [h1, h2, h3]
      have hgoos : (env.goos == "linux") = false := by
        simp [hg]
      constructor
      · intro e he
        simp [checkBrowserAvailability, hssh, hgoos, he]
      · intro he
        simp [checkBrowserAvailability, hssh, hgoos, he]
  · unfold checkBrowserAvailability
    dsimp only
    split
    · simp
    · split
      · simp
      · cases bindError <;> simp

/-- C8 witness: the SSH-without-display case and the available case at
concrete environments. -/
theorem checkBrowserAvailability_cascade_witness :
    checkBrowserAvailability ⟨"/dev/pts/0", "", "", "", "", "linux"⟩ 8888 none =
      (⟨false, "SSH session without display forwarding"⟩, []) ∧
    checkBrowserAvailability ⟨"", "", "", ":0", "", "linux"⟩ 8888 none =
      (⟨true, ""⟩, [.bindAttempt 8888, .closeListener]) := by
  refine ⟨(checkBrowserAvailability_cascade ⟨"/dev/pts/0", "", "", "", "", "linux"⟩
      8888 none).1 (by constructor <;> simp), ?_⟩
  exact ((checkBrowserAvailability_cascade ⟨"", "", "", ":0", "", "linux"⟩
      8888 none).2.2.1 (by left; left; simp)).2 rfl

end AuthGate
